import Mathlib

/-!
# Review Analyzer Server — a shallow embedding of `src/server.py`

The embedding models the core of `ReviewAnalyzerServer`:

* review records (Python dicts with keys `ReviewId`, `Location`, `Timestamp`,
  `ReviewBody` and, once written, `sentiment`) become the structure `Review`;
* the store `self.reviews` becomes a `List Review`, and each handler becomes a
  function from the store (plus the request data and the environment-supplied
  values) to a response together with the store as it is after the call —
  Python's aliasing is made explicit: the handlers return the mutated store;
* the VADER scorer `sia.polarity_scores` is an external, deterministic
  capability and is passed in as a function `score : String → Sentiment`;
* `datetime.strptime` / `strftime` on the two fixed formats are modelled by
  executable parsers/printers over a six-field `DT` value; Python compares
  `datetime` objects field-lexicographically;
* an uncaught exception escaping a handler (the `ValueError` that
  `datetime.strptime` raises on malformed input) is the response `HResp.raised`.

String processing is implemented structurally over `List Char` so that every
definition evaluates by kernel reduction. The embedding of `parse_qs` covers
query/body strings without percent-escapes, `+`, or `=` inside values, which is
the fragment the claims exercise (and `strptime`'s formats contain no escapes).
-/

namespace ReviewServer

/-- The VADER polarity scores dict
`{'neg': …, 'neu': …, 'pos': …, 'compound': …}` returned by
`sia.polarity_scores` (src/server.py:68-70), with rational fields. -/
structure Sentiment where
  neg : Rat
  neu : Rat
  pos : Rat
  compound : Rat
deriving DecidableEq, Repr

/-- A review record. CSV-loaded records have no `sentiment` key
(`sentiment = none`); records created by `handle_post`, and records that
`handle_get`'s sentiment loop has touched, carry `some` scores. -/
structure Review where
  ReviewId : String
  Location : String
  Timestamp : String
  ReviewBody : String
  sentiment : Option Sentiment
deriving DecidableEq, Repr

/-- A parsed `datetime` value (year, month, day, hour, minute, second). -/
structure DT where
  year : Nat
  month : Nat
  day : Nat
  hour : Nat
  minute : Nat
  second : Nat
deriving DecidableEq, Repr

/-- Python's `datetime` comparison: field-lexicographic. -/
def dtLe (a b : DT) : Bool :=
  if a.year ≠ b.year then decide (a.year < b.year)
  else if a.month ≠ b.month then decide (a.month < b.month)
  else if a.day ≠ b.day then decide (a.day < b.day)
  else if a.hour ≠ b.hour then decide (a.hour < b.hour)
  else if a.minute ≠ b.minute then decide (a.minute < b.minute)
  else decide (a.second ≤ b.second)

/-- `s.split(c)` for a one-character separator, on the character list:
`"" → [""]`, separators at the ends produce empty chunks, as in Python. -/
def splitOnChar (c : Char) : List Char → List (List Char)
  | [] => [[]]
  | x :: xs =>
    match splitOnChar c xs with
    | [] => if x = c then [[], []] else [[x]]
    | y :: ys => if x = c then [] :: y :: ys else (x :: y) :: ys

/-- `s.split(c)` back on strings. -/
def pySplit (s : String) (c : Char) : List String :=
  (splitOnChar c s.data).map String.mk

/-- The digits of a decimal numeral, folded left; `none` on a non-digit. -/
def digitsToNat (acc : Nat) : List Char → Option Nat
  | [] => some acc
  | c :: cs => if c.isDigit then digitsToNat (acc * 10 + (c.toNat - 48)) cs else none

/-- A non-empty all-digit string's value, else `none` (what `strptime`'s
`\d`-groups accept before range checks). -/
def parseDigits (s : String) : Option Nat :=
  match s.data with
  | [] => none
  | l => digitsToNat 0 l

/-- Gregorian leap year, as `datetime` validates day-of-month. -/
def isLeap (y : Nat) : Bool := (y % 4 == 0 && y % 100 != 0) || (y % 400 == 0)

/-- Days in a month, as `datetime` validates. -/
def daysInMonth (y m : Nat) : Nat :=
  if m = 2 then (if isLeap y then 29 else 28)
  else if m = 4 ∨ m = 6 ∨ m = 9 ∨ m = 11 then 30
  else 31

/-- `datetime.strptime(s, '%Y-%m-%d')` (src/server.py:103,107): a four-digit
year ≥ 1, a one-or-two-digit month in 1..12, a one-or-two-digit day valid for
that month, nothing left over; the result is that day at midnight. `none`
models the `ValueError` raised on malformed input. -/
def strptimeDate (s : String) : Option DT :=
  match pySplit s '-' with
  | [ys, ms, ds] =>
    match parseDigits ys, parseDigits ms, parseDigits ds with
    | some y, some m, some d =>
      if ys.length = 4 ∧ 1 ≤ y ∧
         ms.length ≤ 2 ∧ 1 ≤ m ∧ m ≤ 12 ∧
         ds.length ≤ 2 ∧ 1 ≤ d ∧ d ≤ daysInMonth y m
      then some ⟨y, m, d, 0, 0, 0⟩ else none
    | _, _, _ => none
  | _ => none

/-- `datetime.strptime(s, '%Y-%m-%d %H:%M:%S')` (src/server.py:104,108):
the date part as in `strptimeDate`, then hour 0..23, minute and second 0..59,
each of one or two digits. -/
def strptimeTimestamp (s : String) : Option DT :=
  match pySplit s ' ' with
  | [dpart, tpart] =>
    match strptimeDate dpart, pySplit tpart ':' with
    | some d, [hs, mins, ss] =>
      match parseDigits hs, parseDigits mins, parseDigits ss with
      | some h, some mi, some sec =>
        if hs.length ≤ 2 ∧ h ≤ 23 ∧
           mins.length ≤ 2 ∧ mi ≤ 59 ∧
           ss.length ≤ 2 ∧ sec ≤ 59
        then some ⟨d.year, d.month, d.day, h, mi, sec⟩ else none
      | _, _, _ => none
    | _, _ => none
  | _ => none

/-- Zero-padding to two digits, as `strftime`'s `%m %d %H %M %S`. -/
def pad2 (n : Nat) : String := if n < 10 then "0" ++ toString n else toString n

/-- Zero-padding to four digits, as `strftime`'s `%Y`. -/
def pad4 (n : Nat) : String :=
  if n < 10 then "000" ++ toString n
  else if n < 100 then "00" ++ toString n
  else if n < 1000 then "0" ++ toString n
  else toString n

/-- `d.strftime('%Y-%m-%d %H:%M:%S')` (src/server.py:145). -/
def strftimeTimestamp (d : DT) : String :=
  pad4 d.year ++ "-" ++ pad2 d.month ++ "-" ++ pad2 d.day ++ " " ++
  pad2 d.hour ++ ":" ++ pad2 d.minute ++ ":" ++ pad2 d.second

/-- `self.allowed_locations` (src/server.py:47-66); the Python set literal,
as the list of its elements — only membership is ever used. -/
def allowed_locations : List String :=
  [ "Albuquerque, New Mexico",
    "Carlsbad, California",
    "Chula Vista, California",
    "Colorado Springs, Colorado",
    "Denver, Colorado",
    "El Cajon, California",
    "El Paso, Texas",
    "Escondido, California",
    "Fresno, California",
    "La Mesa, California",
    "Las Vegas, Nevada",
    "Los Angeles, California",
    "Oceanside, California",
    "Phoenix, Arizona",
    "Sacramento, California",
    "Salt Lake City, Utah",
    "San Diego, California",
    "Tucson, Arizona" ]

/-- Python truthiness of an optional string, as in `if location:`
(src/server.py:96,102,106,134): `None` and `""` are falsy; the result is the
value when truthy. -/
def pyTruthy : Option String → Option String
  | some s => if s = "" then none else some s
  | none => none

/-- `review["sentiment"] = self.analyze_sentiment(review["ReviewBody"])`
(src/server.py:111) on one record; `score` abstracts `sia.polarity_scores`. -/
def attachSentiment (score : String → Sentiment) (r : Review) : Review :=
  { r with sentiment := some (score r.ReviewBody) }

/-- `x['sentiment']['compound']` (src/server.py:113); after the sentiment loop
every sorted record has scores, so the `none` default is never consulted there. -/
def compoundKey (r : Review) : Rat :=
  (r.sentiment.getD ⟨0, 0, 0, 0⟩).compound

/-- The comparison `filtered_reviews.sort(key=lambda x: x['sentiment']['compound'],
reverse=True)` sorts by: `a` may precede `b` iff `a`'s compound is ≥ `b`'s. -/
def sortRel (a b : Review) : Prop := compoundKey b ≤ compoundKey a

instance : DecidableRel sortRel := fun a b =>
  inferInstanceAs (Decidable (compoundKey b ≤ compoundKey a))

instance : IsTotal Review sortRel :=
  ⟨fun a b => le_total (compoundKey b) (compoundKey a)⟩

instance : IsTrans Review sortRel :=
  ⟨fun _ _ _ h1 h2 => le_trans h2 h1⟩

/-- `list.sort(key=..., reverse=True)` (src/server.py:113). Python's sort is
stable; a stable sort by a total preorder has a unique result, and Mathlib's
`insertionSort` is that stable sort. -/
def sortByCompoundDesc (l : List Review) : List Review :=
  l.insertionSort sortRel

/-- A handler's outcome, abstracting status line and JSON body
(src/server.py:98-99,115-120,135-140,152-157): `ok l` is `200 OK` with the JSON
array of `l`; `created r` is `201 Created` with the JSON object of `r`;
`clientError m` is `400 Bad Request` with body `{"error": m}`; `raised` is an
exception escaping the handler uncaught (the `ValueError` from
`datetime.strptime`), which never yields a 2xx/400 response from the handler. -/
inductive HResp where
  | ok (body : List Review)
  | created (r : Review)
  | clientError (msg : String)
  | raised
deriving DecidableEq, Repr

/-- One date-filter comprehension
`[r for r in l if datetime.strptime(r["Timestamp"], '%Y-%m-%d %H:%M:%S') ⋈ bound]`
(src/server.py:104,108): evaluated eagerly, and the whole comprehension raises
(`none`) if some record's timestamp does not parse. -/
def filterByTs (keep : DT → Bool) : List Review → Option (List Review)
  | [] => some []
  | r :: rs =>
    match strptimeTimestamp r.Timestamp with
    | none => none
    | some t =>
      match filterByTs keep rs with
      | none => none
      | some rest => some (if keep t then r :: rest else rest)

/-- What the sentiment loop (src/server.py:110-111) leaves of the store when
`filtered_reviews` is a fresh list: the store keeps its order, and exactly the
records that survived the (value-determined) filters — the shared dict
objects — now carry sentiment. -/
def writeSentiments (score : String → Sentiment) (filtered store : List Review) :
    List Review :=
  store.map fun r => if r ∈ filtered then attachSentiment score r else r

/-- The tail of `handle_get` (src/server.py:110-120): write sentiment into every
surviving record — Python mutates the shared dicts, so the store's own records
change — then sort the filtered list in place and return it as the 200 body.
`aliased` records whether `filtered_reviews` is still the very list object
`self.reviews` (true iff no filter branch ran): then the in-place sort also
reorders the store. -/
def getFinish (score : String → Sentiment) (store filtered : List Review)
    (aliased : Bool) : HResp × List Review :=
  let out := sortByCompoundDesc (filtered.map (attachSentiment score))
  (HResp.ok out, if aliased then out else writeSentiments score filtered store)

/-- The `end_date` branch of `handle_get` (src/server.py:106-108). -/
def getEndStep (score : String → Sentiment) (store filtered : List Review)
    (aliased : Bool) (end_date : Option String) : HResp × List Review :=
  match pyTruthy end_date with
  | none => getFinish score store filtered aliased
  | some s =>
    match strptimeDate s with
    | none => (HResp.raised, store)
    | some ed =>
      match filterByTs (fun t => dtLe t ed) filtered with
      | none => (HResp.raised, store)
      | some f => getFinish score store f false

/-- The `start_date` branch of `handle_get` (src/server.py:102-104). -/
def getStartStep (score : String → Sentiment) (store filtered : List Review)
    (aliased : Bool) (start_date end_date : Option String) : HResp × List Review :=
  match pyTruthy start_date with
  | none => getEndStep score store filtered aliased end_date
  | some s =>
    match strptimeDate s with
    | none => (HResp.raised, store)
    | some sd =>
      match filterByTs (fun t => dtLe sd t) filtered with
      | none => (HResp.raised, store)
      | some f => getEndStep score store f false end_date

/-- `handle_get` (src/server.py:87-120) on the extracted query parameters,
returning the response and the store after the call. -/
def handle_get (score : String → Sentiment) (store : List Review)
    (location start_date end_date : Option String) : HResp × List Review :=
  match pyTruthy location with
  | none => getStartStep score store store true start_date end_date
  | some loc =>
    if loc ∈ allowed_locations then
      getStartStep score store (store.filter fun r => r.Location == loc) false
        start_date end_date
    else (HResp.clientError "Invalid location", store)

/-- One `&`-separated chunk of a query string, as `urllib.parse.parse_qs` with
its defaults treats it (on the fragment without percent-escapes, `+`, or `=`
inside values): a `name=value` chunk with non-empty value yields that pair;
blank values and bare names are dropped. -/
def qsChunk (nv : String) : Option (String × String) :=
  match pySplit nv '=' with
  | [n, v] => if v = "" then none else some (n, v)
  | _ => none

/-- `urllib.parse.parse_qs` with its defaults (src/server.py:89,129): split on
`&` and keep the chunks' pairs, in order. -/
def parse_qs_pairs (qs : String) : List (String × String) :=
  (pySplit qs '&').filterMap qsChunk

/-- The `&`-join of query-string chunks; every query string is the `&`-join of
its `&`-separated chunks. -/
def joinAmp : List String → String
  | [] => ""
  | [nv] => nv
  | nv :: cs => nv ++ "&" ++ joinAmp cs

/-- `parse_qs(qs).get(name, [None])[0]` (src/server.py:91-93,131-132): the first
value bound to `name`, if any. -/
def getParam (qs name : String) : Option String :=
  ((parse_qs_pairs qs).find? fun p => p.1 == name).map fun p => p.2

/-- The full GET handler on the raw `QUERY_STRING` (src/server.py:87-120). -/
def handle_get_qs (score : String → Sentiment) (store : List Review)
    (qs : String) : HResp × List Review :=
  handle_get score store (getParam qs "location") (getParam qs "start_date")
    (getParam qs "end_date")

/-- `handle_post` (src/server.py:122-157) on the decoded form parameters
(`parse_qs` of the body: a `Location`/`ReviewBody` that is absent or blank
arrives as `none`). `uuid` models the value of `str(uuid.uuid4())` and `now`
the current wall-clock datetime, both supplied by the environment at the call. -/
def handle_post (score : String → Sentiment) (store : List Review)
    (uuid : String) (now : DT) (location review_body : Option String) :
    HResp × List Review :=
  match pyTruthy location, pyTruthy review_body with
  | some loc, some body =>
    if loc ∈ allowed_locations then
      let r : Review :=
        { ReviewId := uuid, Location := loc,
          Timestamp := strftimeTimestamp now,
          ReviewBody := body, sentiment := some (score body) }
      (HResp.created r, store ++ [r])
    else (HResp.clientError "Invalid location", store)
  | _, _ => (HResp.clientError "Location and ReviewBody are required", store)

/-- The client-visible data of a record: every field except the derived
`sentiment`. -/
def stripSentiment (r : Review) : String × String × String × String :=
  (r.ReviewId, r.Location, r.Timestamp, r.ReviewBody)

/-- The location clause of the spec's filter semantics (§4.2): when a location
filter is given, the record's location equals the filter string. -/
def locPred (location : Option String) (r : Review) : Bool :=
  match pyTruthy location with
  | some s => r.Location == s
  | none => true

/-- The start-date clause of the spec's filter semantics (§4.2): when a start
date is given, the record's timestamp is ≥ that date as midnight. -/
def startPred (start_date : Option String) (r : Review) : Bool :=
  match pyTruthy start_date with
  | some s =>
    match strptimeDate s, strptimeTimestamp r.Timestamp with
    | some sd, some t => dtLe sd t
    | _, _ => false
  | none => true

/-- The end-date clause of the spec's filter semantics (§4.2): when an end date
is given, the record's timestamp is ≤ that date as midnight. -/
def endPred (end_date : Option String) (r : Review) : Bool :=
  match pyTruthy end_date with
  | some s =>
    match strptimeDate s, strptimeTimestamp r.Timestamp with
    | some ed, some t => dtLe t ed
    | _, _ => false
  | none => true

/-- The spec's survival predicate, written from the spec's words (§4.2, claim
C5): a record survives iff, for each filter that is given, its field satisfies
it — the three clauses conjoined. Compared against `handle_get`'s staged
filtering. -/
def specSurvives (location start_date end_date : Option String)
    (r : Review) : Bool :=
  (locPred location r && startPred start_date r) && endPred end_date r

/-- A concrete scorer used in counterexamples and witnesses (any deterministic
`String → Sentiment` is a legitimate instance of the external capability). -/
def scoreEx : String → Sentiment := fun s =>
  if s = "great" then ⟨0, 0, 1, 1⟩ else ⟨1, 0, 0, -1⟩

/-- A concrete stored record (as bulk-loaded: no sentiment). -/
def rA : Review :=
  ⟨"id-a", "Denver, Colorado", "2020-01-01 10:00:00", "awful", none⟩

/-- A second concrete stored record. -/
def rB : Review :=
  ⟨"id-b", "Denver, Colorado", "2020-02-02 10:00:00", "great", none⟩

/-- A concrete store. -/
def storeEx : List Review := [rA, rB]

/-- A concrete wall-clock instant. -/
def dtEx : DT := ⟨2024, 1, 2, 3, 4, 5⟩

/-- The record a submit at `dtEx` with fresh id "u1" constructs. -/
def rEx1 : Review :=
  ⟨"u1", "Denver, Colorado", strftimeTimestamp dtEx, "great", some (scoreEx "great")⟩

/-- The record a second submit at `dtEx` with fresh id "u2" constructs. -/
def rEx2 : Review :=
  ⟨"u2", "Denver, Colorado", strftimeTimestamp dtEx, "great", some (scoreEx "great")⟩

/-- The store-effect conclusions shared by `handle_get`'s stages (claim C1):
the stripped records are preserved as a multiset; every record after the call
is an original record or an original with sentiment freshly written; a 400
response or an escaped exception leaves the store untouched. -/
def StoreAfter (score : String → Sentiment) (store : List Review)
    (out : HResp × List Review) : Prop :=
  ((out.2.map stripSentiment).Perm (store.map stripSentiment)) ∧
  (∀ r2 ∈ out.2, r2 ∈ store ∨ ∃ r ∈ store, r2 = attachSentiment score r) ∧
  (out.1 = HResp.raised → out.2 = store) ∧
  (∀ m, out.1 = HResp.clientError m → out.2 = store)

/-! ## Helper lemmas -/

/-- Every allowed location string is non-empty (so it is truthy). -/
lemma allowed_ne_empty : ∀ l ∈ allowed_locations, l ≠ "" := by decide

/-- `handle_post` on a valid, non-blank submission: the constructed record is
appended and returned. -/
lemma handle_post_success (score : String → Sentiment) (store : List Review)
    (uuid : String) (now : DT) (loc body : String)
    (hloc : loc ∈ allowed_locations) (hbody : body ≠ "") :
    handle_post score store uuid now (some loc) (some body)
      = (HResp.created ⟨uuid, loc, strftimeTimestamp now, body, some (score body)⟩,
         store ++ [⟨uuid, loc, strftimeTimestamp now, body, some (score body)⟩]) := by
  have hne : loc ≠ "" := allowed_ne_empty loc hloc
  simp [handle_post, pyTruthy, hne, hbody, hloc]

/-- `handle_post` with a truthy location outside the allow-list: rejected,
store unchanged. -/
lemma handle_post_invalid (score : String → Sentiment) (store : List Review)
    (uuid : String) (now : DT) (loc body : String)
    (hloc : loc ≠ "") (hbody : body ≠ "") (hmem : loc ∉ allowed_locations) :
    handle_post score store uuid now (some loc) (some body)
      = (HResp.clientError "Invalid location", store) := by
  simp [handle_post, pyTruthy, hloc, hbody, hmem]

/-- Stripping commutes with writing sentiment. -/
lemma strip_attach (score : String → Sentiment) (r : Review) :
    stripSentiment (attachSentiment score r) = stripSentiment r := rfl

/-- The sort is a permutation. -/
lemma sortByCompoundDesc_perm (l : List Review) :
    (sortByCompoundDesc l).Perm l :=
  List.perm_insertionSort _ _

/-- The sort's output is descending in the compound score. -/
lemma sortByCompoundDesc_sorted (l : List Review) :
    (sortByCompoundDesc l).Pairwise fun a b => compoundKey b ≤ compoundKey a :=
  List.sorted_insertionSort sortRel l

/-- The sentiment loop on a fresh filtered list keeps the stripped store. -/
lemma strip_writeSentiments (score : String → Sentiment)
    (filtered store : List Review) :
    (writeSentiments score filtered store).map stripSentiment
      = store.map stripSentiment := by
  unfold writeSentiments
  rw [List.map_map]
  apply List.map_congr_left
  intro r _
  by_cases h : r ∈ filtered <;> simp [h, Function.comp, strip_attach]

/-- Every record of the store after the sentiment loop is an original record,
possibly with sentiment freshly written. -/
lemma mem_writeSentiments (score : String → Sentiment)
    (filtered store : List Review) (r2 : Review)
    (h : r2 ∈ writeSentiments score filtered store) :
    r2 ∈ store ∨ ∃ r ∈ store, r2 = attachSentiment score r := by
  unfold writeSentiments at h
  obtain ⟨r, hr, heq⟩ := List.mem_map.1 h
  by_cases hf : r ∈ filtered
  · right; exact ⟨r, hr, by rw [← heq, if_pos hf]⟩
  · left; rw [← heq, if_neg hf]; exact hr

/-- Sorting the attached records keeps the stripped multiset of the input. -/
lemma strip_sort_attach (score : String → Sentiment) (l : List Review) :
    ((sortByCompoundDesc (l.map (attachSentiment score))).map stripSentiment).Perm
      (l.map stripSentiment) := by
  have h := (sortByCompoundDesc_perm (l.map (attachSentiment score))).map stripSentiment
  rwa [List.map_map] at h

/-- When every timestamp of the list parses, a date-filter comprehension does
not raise and filters by the parsed timestamp. -/
lemma filterByTs_eq (keep : DT → Bool) (l : List Review)
    (h : ∀ r ∈ l, (strptimeTimestamp r.Timestamp).isSome) :
    filterByTs keep l = some (l.filter fun r =>
      match strptimeTimestamp r.Timestamp with
      | some t => keep t
      | none => false) := by
  induction l with
  | nil => rfl
  | cons r rs ih =>
    obtain ⟨t, ht⟩ := Option.isSome_iff_exists.1 (h r (List.mem_cons_self r rs))
    have ih2 := ih fun x hx => h x (List.mem_cons_of_mem r hx)
    unfold filterByTs
    rw [ht, ih2, List.filter_cons]
    simp only [ht]

/-- The response of the final stage. -/
lemma getFinish_fst (score : String → Sentiment) (store filtered : List Review)
    (aliased : Bool) :
    (getFinish score store filtered aliased).1
      = HResp.ok (sortByCompoundDesc (filtered.map (attachSentiment score))) := rfl

/-- With no filter run, the in-place sort reorders the store itself. -/
lemma getFinish_snd_true (score : String → Sentiment) (store filtered : List Review) :
    (getFinish score store filtered true).2
      = sortByCompoundDesc (filtered.map (attachSentiment score)) := rfl

/-- With a fresh filtered list, the store keeps its order and the survivors
get sentiment written in. -/
lemma getFinish_snd_false (score : String → Sentiment) (store filtered : List Review) :
    (getFinish score store filtered false).2 = writeSentiments score filtered store := rfl

/-- A stage that returns the store unchanged satisfies the store-effect
conclusions. -/
lemma storeAfter_refl (score : String → Sentiment) (store : List Review)
    (resp : HResp) : StoreAfter score store (resp, store) :=
  ⟨List.Perm.refl _, fun _ h2 => Or.inl h2, fun _ => rfl, fun _ _ => rfl⟩

/-- Store effects of the final stage; when the filtered list is fresh the
stripped store is unchanged in order as well. -/
lemma storeAfter_getFinish (score : String → Sentiment) (store filtered : List Review)
    (aliased : Bool) (halias : aliased = true → filtered = store) :
    StoreAfter score store (getFinish score store filtered aliased) ∧
    (aliased = false →
      (getFinish score store filtered aliased).2.map stripSentiment
        = store.map stripSentiment) := by
  cases aliased with
  | true =>
    have hst := halias rfl
    subst hst
    refine ⟨⟨?_, ?_, ?_, ?_⟩, fun hc => Bool.noConfusion hc⟩
    · rw [getFinish_snd_true]
      exact strip_sort_attach score filtered
    · rw [getFinish_snd_true]
      intro r2 h2
      obtain ⟨r, hr, heq⟩ := List.mem_map.1 ((List.mem_insertionSort sortRel).1 h2)
      exact Or.inr ⟨r, hr, heq.symm⟩
    · rw [getFinish_fst]
      intro h
      exact HResp.noConfusion h
    · rw [getFinish_fst]
      intro m h
      exact HResp.noConfusion h
  | false =>
    refine ⟨⟨?_, ?_, ?_, ?_⟩, fun _ => ?_⟩
    · rw [getFinish_snd_false]
      exact List.Perm.of_eq (strip_writeSentiments score filtered store)
    · rw [getFinish_snd_false]
      exact mem_writeSentiments score filtered store
    · rw [getFinish_fst]
      intro h
      exact HResp.noConfusion h
    · rw [getFinish_fst]
      intro m h
      exact HResp.noConfusion h
    · rw [getFinish_snd_false]
      exact strip_writeSentiments score filtered store

/-- Store effects of the end-date stage; once a filter has run (or on any
error) the stripped store is unchanged in order. -/
lemma storeAfter_getEndStep (score : String → Sentiment) (store filtered : List Review)
    (aliased : Bool) (end_date : Option String)
    (halias : aliased = true → filtered = store) :
    StoreAfter score store (getEndStep score store filtered aliased end_date) ∧
    ((aliased = false ∨ pyTruthy end_date ≠ none) →
      (getEndStep score store filtered aliased end_date).2.map stripSentiment
        = store.map stripSentiment) := by
  cases he : pyTruthy end_date with
  | none =>
    have h := storeAfter_getFinish score store filtered aliased halias
    rw [show getEndStep score store filtered aliased end_date
        = getFinish score store filtered aliased by simp [getEndStep, he]]
    exact ⟨h.1, fun hc => h.2 (hc.resolve_right fun hn => hn rfl)⟩
  | some s =>
    cases hde : strptimeDate s with
    | none =>
      rw [show getEndStep score store filtered aliased end_date
          = (HResp.raised, store) by simp [getEndStep, he, hde]]
      exact ⟨storeAfter_refl score store HResp.raised, fun _ => rfl⟩
    | some ed =>
      cases hft : filterByTs (fun t => dtLe t ed) filtered with
      | none =>
        rw [show getEndStep score store filtered aliased end_date
            = (HResp.raised, store) by simp [getEndStep, he, hde, hft]]
        exact ⟨storeAfter_refl score store HResp.raised, fun _ => rfl⟩
      | some f =>
        rw [show getEndStep score store filtered aliased end_date
            = getFinish score store f false by simp [getEndStep, he, hde, hft]]
        have h := storeAfter_getFinish score store f false fun hc => Bool.noConfusion hc
        exact ⟨h.1, fun _ => h.2 rfl⟩

/-- Store effects of the start-date stage. -/
lemma storeAfter_getStartStep (score : String → Sentiment)
    (store filtered : List Review) (aliased : Bool)
    (start_date end_date : Option String)
    (halias : aliased = true → filtered = store) :
    StoreAfter score store
      (getStartStep score store filtered aliased start_date end_date) ∧
    ((aliased = false ∨ pyTruthy start_date ≠ none ∨ pyTruthy end_date ≠ none) →
      (getStartStep score store filtered aliased start_date end_date).2.map
          stripSentiment
        = store.map stripSentiment) := by
  cases hsme : pyTruthy start_date with
  | none =>
    have h := storeAfter_getEndStep score store filtered aliased end_date halias
    rw [show getStartStep score store filtered aliased start_date end_date
        = getEndStep score store filtered aliased end_date by
      simp [getStartStep, hsme]]
    refine ⟨h.1, fun hc => h.2 ?_⟩
    rcases hc with hc | hc | hc
    · exact Or.inl hc
    · exact absurd rfl hc
    · exact Or.inr hc
  | some s =>
    cases hds : strptimeDate s with
    | none =>
      rw [show getStartStep score store filtered aliased start_date end_date
          = (HResp.raised, store) by simp [getStartStep, hsme, hds]]
      exact ⟨storeAfter_refl score store HResp.raised, fun _ => rfl⟩
    | some sd =>
      cases hft : filterByTs (fun t => dtLe sd t) filtered with
      | none =>
        rw [show getStartStep score store filtered aliased start_date end_date
            = (HResp.raised, store) by simp [getStartStep, hsme, hds, hft]]
        exact ⟨storeAfter_refl score store HResp.raised, fun _ => rfl⟩
      | some f =>
        rw [show getStartStep score store filtered aliased start_date end_date
            = getEndStep score store f false end_date by
          simp [getStartStep, hsme, hds, hft]]
        have h := storeAfter_getEndStep score store f false end_date
          fun hc => Bool.noConfusion hc
        exact ⟨h.1, fun _ => h.2 (Or.inl rfl)⟩

/-- The end-date stage raises no exception under well-formed input, and keeps,
up to the final sort, exactly the records satisfying the spec's end clause. -/
lemma getEndStep_ok (score : String → Sentiment) (store filtered : List Review)
    (aliased : Bool) (end_date : Option String)
    (hed : ∀ s, pyTruthy end_date = some s → (strptimeDate s).isSome)
    (hts : ∀ r ∈ filtered, (strptimeTimestamp r.Timestamp).isSome) :
    ∃ l, (getEndStep score store filtered aliased end_date).1 = HResp.ok l ∧
      l.Perm ((filtered.filter (endPred end_date)).map (attachSentiment score)) := by
  cases he : pyTruthy end_date with
  | none =>
    refine ⟨sortByCompoundDesc (filtered.map (attachSentiment score)), ?_, ?_⟩
    · simp [getEndStep, he, getFinish]
    · have hself : filtered.filter (endPred end_date) = filtered :=
        List.filter_eq_self.2 fun r _ => by simp [endPred, he]
      rw [hself]
      exact sortByCompoundDesc_perm _
  | some s =>
    obtain ⟨ed, hde⟩ := Option.isSome_iff_exists.1 (hed s he)
    have hfil := filterByTs_eq (fun t => dtLe t ed) filtered hts
    refine ⟨sortByCompoundDesc (((filtered.filter fun r =>
        match strptimeTimestamp r.Timestamp with
        | some t => dtLe t ed
        | none => false).map (attachSentiment score))), ?_, ?_⟩
    · simp [getEndStep, he, hde, hfil, getFinish]
    · refine (sortByCompoundDesc_perm _).trans (List.Perm.of_eq ?_)
      apply congrArg
      apply List.filter_congr
      intro r _
      cases hts2 : strptimeTimestamp r.Timestamp with
      | none => simp [endPred, he, hde, hts2]
      | some t => simp [endPred, he, hde, hts2]

/-- The start-date stage raises no exception under well-formed input, and
keeps, up to the final sort, exactly the records satisfying the spec's start
and end clauses. -/
lemma getStartStep_ok (score : String → Sentiment) (store filtered : List Review)
    (aliased : Bool) (start_date end_date : Option String)
    (hsd : ∀ s, pyTruthy start_date = some s → (strptimeDate s).isSome)
    (hed : ∀ s, pyTruthy end_date = some s → (strptimeDate s).isSome)
    (hts : ∀ r ∈ filtered, (strptimeTimestamp r.Timestamp).isSome) :
    ∃ l, (getStartStep score store filtered aliased start_date end_date).1
        = HResp.ok l ∧
      l.Perm ((filtered.filter fun r =>
        startPred start_date r && endPred end_date r).map (attachSentiment score)) := by
  cases hsme : pyTruthy start_date with
  | none =>
    obtain ⟨l, h1, h2⟩ := getEndStep_ok score store filtered aliased end_date hed hts
    refine ⟨l, ?_, ?_⟩
    · rw [show getStartStep score store filtered aliased start_date end_date
          = getEndStep score store filtered aliased end_date by
        simp [getStartStep, hsme]]
      exact h1
    · refine h2.trans (List.Perm.of_eq ?_)
      apply congrArg
      apply List.filter_congr
      intro r _
      simp [startPred, hsme]
  | some s =>
    obtain ⟨sd, hds⟩ := Option.isSome_iff_exists.1 (hsd s hsme)
    have hfil := filterByTs_eq (fun t => dtLe sd t) filtered hts
    obtain ⟨l, h1, h2⟩ := getEndStep_ok score store
      (filtered.filter fun r =>
        match strptimeTimestamp r.Timestamp with
        | some t => dtLe sd t
        | none => false) false end_date hed
      (fun r hr => hts r (List.mem_of_mem_filter hr))
    refine ⟨l, ?_, ?_⟩
    · rw [show getStartStep score store filtered aliased start_date end_date
          = getEndStep score store
              (filtered.filter fun r =>
                match strptimeTimestamp r.Timestamp with
                | some t => dtLe sd t
                | none => false) false end_date by
        simp [getStartStep, hsme, hds, hfil]]
      exact h1
    · refine h2.trans (List.Perm.of_eq ?_)
      apply congrArg
      rw [List.filter_filter]
      apply List.filter_congr
      intro r _
      cases hts2 : strptimeTimestamp r.Timestamp <;>
        simp [startPred, hsme, hds, hts2, Bool.and_comm]

/-- A split never yields the empty list of chunks. -/
lemma splitOnChar_ne_nil (c : Char) (l : List Char) : splitOnChar c l ≠ [] := by
  cases l with
  | nil => exact fun h => List.noConfusion h
  | cons x xs =>
    unfold splitOnChar
    cases h : splitOnChar c xs <;> by_cases hx : x = c <;> simp [hx]

/-- A chunk free of the separator splits to itself. -/
lemma splitOnChar_of_not_mem (c : Char) (l : List Char) (h : c ∉ l) :
    splitOnChar c l = [l] := by
  induction l with
  | nil => rfl
  | cons x xs ih =>
    rw [List.mem_cons] at h
    push_neg at h
    obtain ⟨hx, h2⟩ := h
    unfold splitOnChar
    rw [ih h2]
    simp [Ne.symm hx]

/-- Splitting after a separator-free prefix peels that prefix off. -/
lemma splitOnChar_append (c : Char) (l1 l2 : List Char) (h : c ∉ l1) :
    splitOnChar c (l1 ++ c :: l2) = l1 :: splitOnChar c l2 := by
  induction l1 with
  | nil =>
    show splitOnChar c (c :: l2) = [] :: splitOnChar c l2
    cases hs : splitOnChar c l2 with
    | nil => exact absurd hs (splitOnChar_ne_nil c l2)
    | cons y ys =>
      conv_lhs => unfold splitOnChar
      rw [hs]
      simp
  | cons x xs ih =>
    rw [List.mem_cons] at h
    push_neg at h
    obtain ⟨hx, h2⟩ := h
    show splitOnChar c (x :: (xs ++ c :: l2)) = (x :: xs) :: splitOnChar c l2
    conv_lhs => unfold splitOnChar
    rw [ih h2]
    simp [Ne.symm hx]

/-- Splitting the `&`-join of `&`-free chunks recovers the chunks. -/
lemma pySplit_joinAmp (cs : List String) (hne : cs ≠ [])
    (h : ∀ nv ∈ cs, ¬ '&' ∈ nv.data) :
    pySplit (joinAmp cs) '&' = cs := by
  induction cs with
  | nil => exact absurd rfl hne
  | cons nv cs2 ih =>
    cases cs2 with
    | nil =>
      show pySplit (joinAmp [nv]) '&' = [nv]
      unfold pySplit joinAmp
      rw [splitOnChar_of_not_mem '&' nv.data (h nv (List.mem_cons_self nv []))]
      rfl
    | cons nv2 cs3 =>
      have hdata : (joinAmp (nv :: nv2 :: cs3)).data
          = nv.data ++ '&' :: (joinAmp (nv2 :: cs3)).data := by
        show (nv ++ "&" ++ joinAmp (nv2 :: cs3)).data
          = nv.data ++ '&' :: (joinAmp (nv2 :: cs3)).data
        simp [String.data_append]
      have ih2 := ih (by simp) fun c hc => h c (List.mem_cons_of_mem nv hc)
      unfold pySplit
      rw [hdata,
        splitOnChar_append '&' nv.data _ (h nv (List.mem_cons_self nv _)),
        List.map_cons]
      unfold pySplit at ih2
      rw [ih2]

/-- `parse_qs` of the `&`-join of `&`-free chunks is the chunks' pairs. -/
lemma parse_qs_pairs_joinAmp (cs : List String)
    (h : ∀ nv ∈ cs, ¬ '&' ∈ nv.data) :
    parse_qs_pairs (joinAmp cs) = cs.filterMap qsChunk := by
  cases cs with
  | nil => rfl
  | cons nv cs2 =>
    unfold parse_qs_pairs
    rw [pySplit_joinAmp _ (by simp) h]

/-- A blank `location=` chunk contributes no pair, wherever it sits. -/
lemma filterMap_qsChunk_blank (pre post : List String) :
    (pre ++ "location=" :: post).filterMap qsChunk
      = (pre ++ post).filterMap qsChunk := by
  have hnone : qsChunk "location=" = none := by decide
  rw [List.filterMap_append, List.filterMap_append, List.filterMap_cons, hnone]

/-- The end-date stage never produces a 400 response. -/
lemma getEndStep_fst_ne_clientError (score : String → Sentiment)
    (store filtered : List Review) (aliased : Bool) (end_date : Option String)
    (m : String) :
    (getEndStep score store filtered aliased end_date).1
      ≠ HResp.clientError m := by
  unfold getEndStep
  split
  · intro h
    rw [getFinish_fst] at h
    exact HResp.noConfusion h
  · split
    · exact fun h => HResp.noConfusion h
    · split
      · exact fun h => HResp.noConfusion h
      · intro h
        rw [getFinish_fst] at h
        exact HResp.noConfusion h

/-- The start-date stage never produces a 400 response. -/
lemma getStartStep_fst_ne_clientError (score : String → Sentiment)
    (store filtered : List Review) (aliased : Bool)
    (start_date end_date : Option String) (m : String) :
    (getStartStep score store filtered aliased start_date end_date).1
      ≠ HResp.clientError m := by
  unfold getStartStep
  split
  · exact getEndStep_fst_ne_clientError score store filtered aliased end_date m
  · split
    · exact fun h => HResp.noConfusion h
    · split
      · exact fun h => HResp.noConfusion h
      · exact getEndStep_fst_ne_clientError score store _ false end_date m

/-- With no location filter the GET handler never produces a 400 response. -/
lemma handle_get_none_fst_ne_clientError (score : String → Sentiment)
    (store : List Review) (start_date end_date : Option String) (m : String) :
    (handle_get score store none start_date end_date).1 ≠ HResp.clientError m :=
  getStartStep_fst_ne_clientError score store store true start_date end_date m

/-! ## Claims -/

/-- C4: a query with no filters returns every record currently in the store,
as a sequence sorted in descending order of `sentiment.compound`, where
sentiment is computed by the scorer on each record's body. -/
theorem C4_unfiltered_query (score : String → Sentiment) (store : List Review) :
    ∃ l, (handle_get score store none none none).1 = HResp.ok l ∧
      l.Perm (store.map (attachSentiment score)) ∧
      l.Pairwise fun a b =>
        (b.sentiment.getD ⟨0, 0, 0, 0⟩).compound
          ≤ (a.sentiment.getD ⟨0, 0, 0, 0⟩).compound :=
  ⟨sortByCompoundDesc (store.map (attachSentiment score)), rfl,
    sortByCompoundDesc_perm _, sortByCompoundDesc_sorted _⟩

/-- C6: a query whose location filter is present (truthy) and not in the
allow-list fails with the 400 "Invalid location" client error, returns no
records, and leaves the store untouched. -/
theorem C6_get_invalid_location (score : String → Sentiment) (store : List Review)
    (s : String) (start_date end_date : Option String)
    (hs : s ≠ "") (hmem : s ∉ allowed_locations) :
    handle_get score store (some s) start_date end_date
      = (HResp.clientError "Invalid location", store) := by
  simp [handle_get, pyTruthy, hs, hmem]

/-- Witness for C6 at a concrete unrecognized location. -/
theorem C6_get_invalid_location_witness :
    handle_get scoreEx storeEx (some "Springfield, Illinois") none none
      = (HResp.clientError "Invalid location", storeEx) :=
  C6_get_invalid_location scoreEx storeEx "Springfield, Illinois" none none
    (by decide) (by decide)

/-- C7: submit validation order — a missing/blank location or body fails with
the MissingField error before any allow-list check; a present location outside
the allow-list then fails with InvalidLocation; both failures leave the store
unchanged. -/
theorem C7_post_validation (score : String → Sentiment) (store : List Review)
    (uuid : String) (now : DT) (location review_body : Option String) :
    ((pyTruthy location = none ∨ pyTruthy review_body = none) →
      handle_post score store uuid now location review_body
        = (HResp.clientError "Location and ReviewBody are required", store)) ∧
    (∀ loc body, pyTruthy location = some loc → pyTruthy review_body = some body →
      loc ∉ allowed_locations →
      handle_post score store uuid now location review_body
        = (HResp.clientError "Invalid location", store)) := by
  constructor
  · rintro (h | h)
    · simp [handle_post, h]
    · simp only [handle_post, h]
      cases pyTruthy location <;> rfl
  · intro loc body hl hb hmem
    simp [handle_post, hl, hb, hmem]

/-- Witness for C7: with an invalid location and a missing body the MissingField
error wins (order), and with a body present the location check rejects. -/
theorem C7_post_validation_witness :
    handle_post scoreEx storeEx "u" dtEx (some "Springfield, Illinois") none
      = (HResp.clientError "Location and ReviewBody are required", storeEx) ∧
    handle_post scoreEx storeEx "u" dtEx (some "Springfield, Illinois") (some "x")
      = (HResp.clientError "Invalid location", storeEx) :=
  ⟨(C7_post_validation scoreEx storeEx "u" dtEx (some "Springfield, Illinois")
      none).1 (Or.inr rfl),
   (C7_post_validation scoreEx storeEx "u" dtEx (some "Springfield, Illinois")
      (some "x")).2 "Springfield, Illinois" "x" (by decide) (by decide) (by decide)⟩

/-- C8: a submit that passes validation appends exactly one record built from
the fresh id, the formatted wall-clock time and the computed sentiment, and
returns that full record; two consecutive such submits with distinct fresh ids
yield records with different ids and grow the store by exactly 2. -/
theorem C8_submit_success (score : String → Sentiment) (store : List Review)
    (u1 u2 : String) (n1 n2 : DT) (loc body : String)
    (hloc : loc ∈ allowed_locations) (hbody : body ≠ "") (hu : u1 ≠ u2) :
    handle_post score store u1 n1 (some loc) (some body)
      = (HResp.created ⟨u1, loc, strftimeTimestamp n1, body, some (score body)⟩,
         store ++ [⟨u1, loc, strftimeTimestamp n1, body, some (score body)⟩]) ∧
    handle_post score
        (store ++ [⟨u1, loc, strftimeTimestamp n1, body, some (score body)⟩])
        u2 n2 (some loc) (some body)
      = (HResp.created ⟨u2, loc, strftimeTimestamp n2, body, some (score body)⟩,
         store ++ [⟨u1, loc, strftimeTimestamp n1, body, some (score body)⟩]
               ++ [⟨u2, loc, strftimeTimestamp n2, body, some (score body)⟩]) ∧
    (⟨u1, loc, strftimeTimestamp n1, body, some (score body)⟩ : Review).ReviewId
      ≠ (⟨u2, loc, strftimeTimestamp n2, body, some (score body)⟩ : Review).ReviewId ∧
    (store ++ [(⟨u1, loc, strftimeTimestamp n1, body, some (score body)⟩ : Review)]
           ++ [(⟨u2, loc, strftimeTimestamp n2, body, some (score body)⟩ : Review)]).length
      = store.length + 2 := by
  refine ⟨handle_post_success score store u1 n1 loc body hloc hbody,
    handle_post_success score _ u2 n2 loc body hloc hbody, hu, ?_⟩
  simp [List.length_append]

/-- Witness for C8 at two concrete submits with distinct fresh ids. -/
theorem C8_submit_success_witness :
    handle_post scoreEx [] "u1" dtEx (some "Denver, Colorado") (some "great")
      = (HResp.created rEx1, [] ++ [rEx1]) ∧
    handle_post scoreEx ([] ++ [rEx1]) "u2" dtEx (some "Denver, Colorado")
        (some "great")
      = (HResp.created rEx2, [] ++ [rEx1] ++ [rEx2]) ∧
    rEx1.ReviewId ≠ rEx2.ReviewId ∧
    (([] : List Review) ++ [rEx1] ++ [rEx2]).length = ([] : List Review).length + 2 :=
  C8_submit_success scoreEx [] "u1" "u2" dtEx dtEx "Denver, Colorado" "great"
    (by decide) (by decide) (by decide)

/-- C2 counterexample: a query with the malformed start date "2020-13-01" does
not produce a typed client-error result — the handler lets the date-parse
exception escape. -/
theorem C2_counterexample :
    (handle_get scoreEx storeEx none (some "2020-13-01") none).1 = HResp.raised ∧
    ¬ ∃ m, (handle_get scoreEx storeEx none (some "2020-13-01") none).1
        = HResp.clientError m := by
  constructor
  · decide
  · rintro ⟨m, hm⟩
    rw [(by decide : (handle_get scoreEx storeEx none (some "2020-13-01") none).1
        = HResp.raised)] at hm
    exact HResp.noConfusion hm

/-- C2 amended: a present start_date or end_date that is not a well-formed
date makes the uncaught `strptime` exception escape the handler — no typed
InvalidDateFormat error and no 400 response — and the store is unchanged. -/
theorem C2_amended_malformed_date_raises (score : String → Sentiment)
    (store : List Review) (s : String) (end_date : Option String)
    (hs : s ≠ "") (hbad : strptimeDate s = none) :
    handle_get score store none (some s) end_date = (HResp.raised, store) ∧
    handle_get score store none none (some s) = (HResp.raised, store) := by
  constructor
  · simp [handle_get, getStartStep, pyTruthy, hs, hbad]
  · simp [handle_get, getStartStep, getEndStep, pyTruthy, hs, hbad]

/-- Witness for the amended C2 at the concrete malformed date "2020-13-01". -/
theorem C2_amended_witness :
    handle_get scoreEx storeEx none (some "2020-13-01") none
      = (HResp.raised, storeEx) ∧
    handle_get scoreEx storeEx none none (some "2020-13-01")
      = (HResp.raised, storeEx) :=
  C2_amended_malformed_date_raises scoreEx storeEx "2020-13-01" none
    (by decide) (by decide)

/-- C3 counterexample: "Phoenix, AZ" — the abbreviated "City, ST" form of the
§6 enumeration — is rejected by location validation, while the full-state-name
form "Phoenix, Arizona" is the member of the allow-list. -/
theorem C3_counterexample :
    (handle_post scoreEx [] "u1" dtEx (some "Phoenix, AZ") (some "ok")).1
      = HResp.clientError "Invalid location" ∧
    "Phoenix, AZ" ∉ allowed_locations ∧
    "Phoenix, Arizona" ∈ allowed_locations :=
  ⟨by decide, by decide, by decide⟩

/-- C3 amended: the allow-list consists of exactly the 18 strings
"City, full state name" enumerated here; a truthy submit location is rejected
with InvalidLocation precisely when it is outside this list. -/
theorem C3_amended_full_state_names (score : String → Sentiment)
    (store : List Review) (uuid : String) (now : DT) (loc body : String)
    (hloc : loc ≠ "") (hbody : body ≠ "") :
    (handle_post score store uuid now (some loc) (some body)).1
        = HResp.clientError "Invalid location"
      ↔ loc ∉ ([ "Albuquerque, New Mexico", "Carlsbad, California",
          "Chula Vista, California", "Colorado Springs, Colorado",
          "Denver, Colorado", "El Cajon, California", "El Paso, Texas",
          "Escondido, California", "Fresno, California", "La Mesa, California",
          "Las Vegas, Nevada", "Los Angeles, California",
          "Oceanside, California", "Phoenix, Arizona", "Sacramento, California",
          "Salt Lake City, Utah", "San Diego, California",
          "Tucson, Arizona" ] : List String) := by
  by_cases hmem : loc ∈ allowed_locations
  · rw [handle_post_success score store uuid now loc body hmem hbody]
    exact iff_of_false (fun h => HResp.noConfusion h) (fun hn => hn hmem)
  · rw [handle_post_invalid score store uuid now loc body hloc hbody hmem]
    exact iff_of_true rfl hmem

/-- Witness for the amended C3: "Phoenix, Arizona" passes location validation. -/
theorem C3_amended_witness :
    (handle_post scoreEx [] "u1" dtEx (some "Phoenix, Arizona") (some "ok")).1
      ≠ HResp.clientError "Invalid location" := by
  intro hres
  exact (C3_amended_full_state_names scoreEx [] "u1" dtEx "Phoenix, Arizona" "ok"
    (by decide) (by decide)).1 hres (by decide)

/-- C10: a GET whose raw query string carries an empty location parameter
(`?location=`), in any position among any other `&`-separated parameters,
behaves exactly as the same request without that parameter — `parse_qs` drops
blank values and `if location:` treats them as absent; and when no other chunk
binds `location`, the query runs with no location filter at all and can never
fail with InvalidLocation. -/
theorem C10_blank_location_param (score : String → Sentiment)
    (store : List Review) (pre post : List String)
    (hfree : ∀ nv ∈ pre ++ post, ¬ '&' ∈ nv.data) :
    handle_get_qs score store (joinAmp (pre ++ "location=" :: post))
      = handle_get_qs score store (joinAmp (pre ++ post)) ∧
    ((∀ nv ∈ pre ++ post, ∀ v, qsChunk nv ≠ some ("location", v)) →
      getParam (joinAmp (pre ++ "location=" :: post)) "location" = none ∧
      ∀ m, (handle_get_qs score store
          (joinAmp (pre ++ "location=" :: post))).1 ≠ HResp.clientError m) := by
  have hfree2 : ∀ nv ∈ pre ++ "location=" :: post, ¬ '&' ∈ nv.data := by
    intro nv hnv
    rcases List.mem_append.1 hnv with h1 | h1
    · exact hfree nv (List.mem_append.2 (Or.inl h1))
    · rcases List.mem_cons.1 h1 with h2 | h2
      · subst h2; decide
      · exact hfree nv (List.mem_append.2 (Or.inr h2))
  have hpairs : parse_qs_pairs (joinAmp (pre ++ "location=" :: post))
      = parse_qs_pairs (joinAmp (pre ++ post)) := by
    rw [parse_qs_pairs_joinAmp _ hfree2, parse_qs_pairs_joinAmp _ hfree,
      filterMap_qsChunk_blank]
  constructor
  · unfold handle_get_qs getParam
    rw [hpairs]
  · intro hnl
    have hfind : ((pre ++ "location=" :: post).filterMap qsChunk).find?
        (fun p => p.1 == "location") = none := by
      rw [List.find?_eq_none]
      rintro ⟨n, v⟩ hp hbeq
      obtain ⟨nv, hnv, hch⟩ := List.mem_filterMap.1 hp
      have hn : n = "location" := by simpa using hbeq
      subst hn
      rcases List.mem_append.1 hnv with h1 | h1
      · exact hnl nv (List.mem_append.2 (Or.inl h1)) v hch
      · rcases List.mem_cons.1 h1 with h2 | h2
        · subst h2
          rw [(by decide : qsChunk "location=" = none)] at hch
          exact Option.noConfusion hch
        · exact hnl nv (List.mem_append.2 (Or.inr h2)) v hch
    have hloc : getParam (joinAmp (pre ++ "location=" :: post)) "location"
        = none := by
      unfold getParam
      rw [parse_qs_pairs_joinAmp _ hfree2, hfind]
      rfl
    refine ⟨hloc, fun m => ?_⟩
    unfold handle_get_qs
    rw [hloc]
    exact handle_get_none_fst_ne_clientError score store _ _ m

/-- Witness for C10: a blank location parameter between two date parameters. -/
theorem C10_blank_location_witness :
    handle_get_qs scoreEx storeEx
        (joinAmp (["start_date=2020-01-15"] ++ "location=" ::
          ["end_date=2020-12-31"]))
      = handle_get_qs scoreEx storeEx
        (joinAmp (["start_date=2020-01-15"] ++ ["end_date=2020-12-31"])) ∧
    ((∀ nv ∈ ["start_date=2020-01-15"] ++ ["end_date=2020-12-31"], ∀ v,
        qsChunk nv ≠ some ("location", v)) →
      getParam (joinAmp (["start_date=2020-01-15"] ++ "location=" ::
          ["end_date=2020-12-31"])) "location" = none ∧
      ∀ m, (handle_get_qs scoreEx storeEx
          (joinAmp (["start_date=2020-01-15"] ++ "location=" ::
            ["end_date=2020-12-31"]))).1 ≠ HResp.clientError m) :=
  C10_blank_location_param scoreEx storeEx ["start_date=2020-01-15"]
    ["end_date=2020-12-31"] (by decide)

/-- C5: for a query whose given filters are well-formed (valid location,
parseable dates; stored timestamps parseable), the returned records are, as a
multiset, exactly the stored records satisfying the spec's conjunctive
predicate — location equality when given, timestamp ≥ startDate-as-midnight
when given, timestamp ≤ endDate-as-midnight when given — each with sentiment
attached. -/
theorem C5_filter_semantics (score : String → Sentiment) (store : List Review)
    (location start_date end_date : Option String)
    (hloc : ∀ s, pyTruthy location = some s → s ∈ allowed_locations)
    (hsd : ∀ s, pyTruthy start_date = some s → (strptimeDate s).isSome)
    (hed : ∀ s, pyTruthy end_date = some s → (strptimeDate s).isSome)
    (hts : ∀ r ∈ store, (strptimeTimestamp r.Timestamp).isSome) :
    ∃ l, (handle_get score store location start_date end_date).1 = HResp.ok l ∧
      l.Perm ((store.filter (specSurvives location start_date end_date)).map
        (attachSentiment score)) := by
  cases hl : pyTruthy location with
  | none =>
    obtain ⟨l, h1, h2⟩ :=
      getStartStep_ok score store store true start_date end_date hsd hed hts
    refine ⟨l, ?_, ?_⟩
    · rw [show handle_get score store location start_date end_date
          = getStartStep score store store true start_date end_date by
        simp [handle_get, hl]]
      exact h1
    · refine h2.trans (List.Perm.of_eq ?_)
      apply congrArg
      apply List.filter_congr
      intro r _
      simp [specSurvives, locPred, hl]
  | some s =>
    have hmem := hloc s hl
    obtain ⟨l, h1, h2⟩ := getStartStep_ok score store
      (store.filter fun r => r.Location == s) false start_date end_date hsd hed
      (fun r hr => hts r (List.mem_of_mem_filter hr))
    refine ⟨l, ?_, ?_⟩
    · rw [show handle_get score store location start_date end_date
          = getStartStep score store (store.filter fun r => r.Location == s)
              false start_date end_date by
        simp [handle_get, hl, hmem]]
      exact h1
    · refine h2.trans (List.Perm.of_eq ?_)
      apply congrArg
      rw [List.filter_filter]
      apply List.filter_congr
      intro r _
      simp only [specSurvives, locPred, hl]
      cases startPred start_date r <;> cases endPred end_date r <;>
        cases r.Location == s <;> rfl

/-- Witness for C5 at a concrete filtered query whose filters are all given
and well-formed. -/
theorem C5_filter_semantics_witness :
    ∃ l, (handle_get scoreEx storeEx (some "Denver, Colorado")
        (some "2020-01-15") (some "2020-12-31")).1 = HResp.ok l ∧
      l.Perm ((storeEx.filter (specSurvives (some "Denver, Colorado")
          (some "2020-01-15") (some "2020-12-31"))).map
        (attachSentiment scoreEx)) :=
  C5_filter_semantics scoreEx storeEx (some "Denver, Colorado")
    (some "2020-01-15") (some "2020-12-31")
    (fun _ hs => (Option.some.inj hs) ▸ (by decide))
    (fun _ hs => (Option.some.inj hs) ▸ (by decide))
    (fun _ hs => (Option.some.inj hs) ▸ (by decide))
    (by decide)

/-- C1 counterexample: an unfiltered query rewrites the store — it writes
sentiment into the stored records and reorders them by descending compound —
and even a filtered query writes sentiment into the surviving stored records. -/
theorem C1_counterexample :
    (handle_get scoreEx storeEx none none none).2 ≠ storeEx ∧
    (handle_get scoreEx storeEx none none none).2
      = [attachSentiment scoreEx rB, attachSentiment scoreEx rA] ∧
    (handle_get scoreEx storeEx (some "Denver, Colorado") none none).2
      = [attachSentiment scoreEx rA, attachSentiment scoreEx rB] ∧
    (handle_get scoreEx storeEx (some "Denver, Colorado") none none).2 ≠ storeEx :=
  ⟨by decide, by decide, by decide, by decide⟩

/-- C1 amended: a query adds and deletes nothing and never changes the id,
location, timestamp or body of a stored record (the stripped records are
preserved as a multiset), and error or exception outcomes leave the store
untouched; but it writes the computed sentiment into the records surviving the
filters, and when no filter is given the in-place sort additionally reorders
the stored collection — with at least one filter given, the stored order of
the stripped records is preserved. -/
theorem C1_amended_query_mutation (score : String → Sentiment)
    (store : List Review) (location start_date end_date : Option String) :
    (((handle_get score store location start_date end_date).2.map
        stripSentiment).Perm (store.map stripSentiment)) ∧
    (∀ r2 ∈ (handle_get score store location start_date end_date).2,
        r2 ∈ store ∨ ∃ r ∈ store, r2 = attachSentiment score r) ∧
    ((handle_get score store location start_date end_date).1 = HResp.raised →
      (handle_get score store location start_date end_date).2 = store) ∧
    (∀ m, (handle_get score store location start_date end_date).1
        = HResp.clientError m →
      (handle_get score store location start_date end_date).2 = store) ∧
    ((pyTruthy location ≠ none ∨ pyTruthy start_date ≠ none ∨
        pyTruthy end_date ≠ none) →
      (handle_get score store location start_date end_date).2.map stripSentiment
        = store.map stripSentiment) := by
  cases hl : pyTruthy location with
  | none =>
    rw [show handle_get score store location start_date end_date
        = getStartStep score store store true start_date end_date by
      simp [handle_get, hl]]
    obtain ⟨⟨p1, p2, p3, p4⟩, p5⟩ :=
      storeAfter_getStartStep score store store true start_date end_date
        fun _ => rfl
    refine ⟨p1, p2, p3, p4, fun hc => p5 ?_⟩
    rcases hc with hc | hc
    · exact absurd rfl hc
    · exact Or.inr hc
  | some s =>
    by_cases hmem : s ∈ allowed_locations
    · rw [show handle_get score store location start_date end_date
          = getStartStep score store (store.filter fun r => r.Location == s)
              false start_date end_date by simp [handle_get, hl, hmem]]
      obtain ⟨⟨p1, p2, p3, p4⟩, p5⟩ :=
        storeAfter_getStartStep score store
          (store.filter fun r => r.Location == s) false start_date end_date
          fun hc => Bool.noConfusion hc
      exact ⟨p1, p2, p3, p4, fun _ => p5 (Or.inl rfl)⟩
    · rw [show handle_get score store location start_date end_date
          = (HResp.clientError "Invalid location", store) by
        simp [handle_get, hl, hmem]]
      exact ⟨List.Perm.refl _, fun _ h2 => Or.inl h2, fun _ => rfl,
        fun _ _ => rfl, fun _ => rfl⟩

/-- C9: round trip — the record returned by a successful submit appears in a
subsequent unfiltered query result with identical id, location, body and
timestamp. -/
theorem C9_round_trip (score : String → Sentiment) (store : List Review)
    (uuid : String) (now : DT) (loc body : String)
    (hloc : loc ∈ allowed_locations) (hbody : body ≠ "") :
    ∃ r store2, handle_post score store uuid now (some loc) (some body)
        = (HResp.created r, store2) ∧
      ∃ l, (handle_get score store2 none none none).1 = HResp.ok l ∧
        ∃ r2, r2 ∈ l ∧ r2.ReviewId = r.ReviewId ∧ r2.Location = r.Location ∧
          r2.ReviewBody = r.ReviewBody ∧ r2.Timestamp = r.Timestamp := by
  have hps := handle_post_success score store uuid now loc body hloc hbody
  refine ⟨_, _, hps, ?_⟩
  refine ⟨sortByCompoundDesc ((store
      ++ [(⟨uuid, loc, strftimeTimestamp now, body, some (score body)⟩ :
        Review)]).map (attachSentiment score)), rfl,
    attachSentiment score ⟨uuid, loc, strftimeTimestamp now, body,
      some (score body)⟩, ?_, rfl, rfl, rfl, rfl⟩
  exact (List.mem_insertionSort sortRel).2
    (List.mem_map_of_mem _ (List.mem_append_right _ (List.mem_singleton.2 rfl)))

/-- Witness for C9 at a concrete submit followed by an unfiltered query. -/
theorem C9_round_trip_witness :
    ∃ r store2, handle_post scoreEx [] "u1" dtEx (some "Denver, Colorado")
        (some "great") = (HResp.created r, store2) ∧
      ∃ l, (handle_get scoreEx store2 none none none).1 = HResp.ok l ∧
        ∃ r2, r2 ∈ l ∧ r2.ReviewId = r.ReviewId ∧ r2.Location = r.Location ∧
          r2.ReviewBody = r.ReviewBody ∧ r2.Timestamp = r.Timestamp :=
  C9_round_trip scoreEx [] "u1" dtEx "Denver, Colorado" "great"
    (by decide) (by decide)

end ReviewServer
